import Mathlib

/- Verification of the core of the NAND2TETRIS Jack-to-VM compiler.
   The definitions below are a shallow embedding of the C++ sources under
   src/Compiler: the SymbolTable, the GlobalRegistry, the Tokenizer's
   number scanner, the Parser's expression grammar, the SemanticAnalyser's
   call resolution and type matching, and the CodeGenerator's expression
   and subroutine-call emission.  C++ std::unordered_map is modelled as an
   association list with replace-on-insert; exceptions are modelled as
   Except String; recursive descent uses an explicit fuel parameter (the
   C++ recursion has no fuel; every theorem either holds for all fuel or
   assumes enough fuel for the input at hand). -/

namespace JackC

/- ===================== SymbolTable (src/Compiler/SemanticAnalyser/SymbolTable.cpp) ===================== -/

/-- Variable kinds, mirroring `enum class SymbolKind` (SymbolTable.h). -/
inductive SymbolKind where
  | STATIC
  | FIELD
  | ARG
  | LCL
  | NONE
  deriving DecidableEq, Repr

/-- Mirrors `kindToString` in SymbolTable.cpp. -/
def kindToString : SymbolKind → String
  | SymbolKind.STATIC => "static"
  | SymbolKind.FIELD => "field"
  | SymbolKind.ARG => "argument"
  | SymbolKind.LCL => "local"
  | SymbolKind.NONE => "unknown"

/-- A symbol-table entry `(type, kind, index, declLine, declCol)` (SymbolTable.h). -/
structure Symbol where
  type : String
  kind : SymbolKind
  index : Int
  declLine : Int
  declCol : Int
  deriving DecidableEq, Repr

/-- Association-list lookup, modelling `std::unordered_map::find`. -/
def alookup {α : Type} : List (String × α) → String → Option α
  | [], _ => none
  | (k, v) :: rest, name => if k = name then some v else alookup rest name

/-- Association-list insert-or-replace, modelling `map[name] = value`. -/
def ainsert {α : Type} : List (String × α) → String → α → List (String × α)
  | [], name, v => [(name, v)]
  | (k, w) :: rest, name, v =>
      if k = name then (name, v) :: rest else (k, w) :: ainsert rest name v

/-- The two-scope symbol table with one running index per kind
(`classScope`, `subRoutineScope`, `indices` in SymbolTable.h; the
`indices` map always holds exactly the four real kinds, modelled here as
four fields). -/
structure SymbolTable where
  classScope : List (String × Symbol)
  subRoutineScope : List (String × Symbol)
  staticIdx : Int
  fieldIdx : Int
  argIdx : Int
  lclIdx : Int
  deriving DecidableEq, Repr

/-- The constructor `SymbolTable::SymbolTable()`: empty scopes, all indices 0. -/
def SymbolTable.empty : SymbolTable := ⟨[], [], 0, 0, 0, 0⟩

/-- `SymbolTable::startSubroutine`: clear the subroutine scope, reset ARG and LCL. -/
def SymbolTable.startSubroutine (t : SymbolTable) : SymbolTable :=
  { t with subRoutineScope := [], argIdx := 0, lclIdx := 0 }

/-- `SymbolTable::lookup`: subroutine scope first, then class scope. -/
def SymbolTable.lookup (t : SymbolTable) (name : String) : Option Symbol :=
  match alookup t.subRoutineScope name with
  | some s => some s
  | none => alookup t.classScope name

/-- `SymbolTable::kindOf`: the kind if found, otherwise NONE. -/
def SymbolTable.kindOf (t : SymbolTable) (name : String) : SymbolKind :=
  match t.lookup name with
  | some s => s.kind
  | none => SymbolKind.NONE

/-- `SymbolTable::typeOf`: the type if found, otherwise the empty string. -/
def SymbolTable.typeOf (t : SymbolTable) (name : String) : String :=
  match t.lookup name with
  | some s => s.type
  | none => ""

/-- `SymbolTable::indexOf`: the index if found, otherwise -1. -/
def SymbolTable.indexOf (t : SymbolTable) (name : String) : Int :=
  match t.lookup name with
  | some s => s.index
  | none => -1

/-- `SymbolTable::varCount`: the running index for a kind (the `indices`
map holds the four real kinds; an absent key yields 0). -/
def SymbolTable.varCount (t : SymbolTable) (k : SymbolKind) : Int :=
  match k with
  | SymbolKind.STATIC => t.staticIdx
  | SymbolKind.FIELD => t.fieldIdx
  | SymbolKind.ARG => t.argIdx
  | SymbolKind.LCL => t.lclIdx
  | SymbolKind.NONE => 0

/-- Whether a kind lives in the class scope (`kind == STATIC || kind == FIELD`
in `SymbolTable::define`). -/
def isGlobalKind : SymbolKind → Bool
  | SymbolKind.STATIC => true
  | SymbolKind.FIELD => true
  | _ => false

/-- Post-collision-check tail of `SymbolTable::define`: build the symbol at
the current per-kind index, bump that index, insert into the scope map
selected by the kind. -/
def SymbolTable.insertSym (t : SymbolTable) (name type : String) (kind : SymbolKind)
    (line col : Int) : SymbolTable :=
  let s : Symbol := ⟨type, kind, t.varCount kind, line, col⟩
  let t' :=
    match kind with
    | SymbolKind.STATIC => { t with staticIdx := t.staticIdx + 1 }
    | SymbolKind.FIELD => { t with fieldIdx := t.fieldIdx + 1 }
    | SymbolKind.ARG => { t with argIdx := t.argIdx + 1 }
    | SymbolKind.LCL => { t with lclIdx := t.lclIdx + 1 }
    | SymbolKind.NONE => t
  if isGlobalKind kind then
    { t' with classScope := ainsert t'.classScope name s }
  else
    { t' with subRoutineScope := ainsert t'.subRoutineScope name s }

/-- `SymbolTable::define`: the collision check calls `lookup` (which
prefers the subroutine scope) and reports an error only when the found
symbol is at the same scope level as the kind being defined. -/
def SymbolTable.define (t : SymbolTable) (name type : String) (kind : SymbolKind)
    (line col : Int) : Except String SymbolTable :=
  match t.lookup name with
  | some existing =>
      if isGlobalKind kind = isGlobalKind existing.kind then
        Except.error ("Semantic Error [" ++ toString line ++ ":" ++ toString col ++ "]: " ++
          "Variable '" ++ name ++ "' is already defined as a " ++ kindToString existing.kind ++
          " at [" ++ toString existing.declLine ++ ":" ++ toString existing.declCol ++ "].")
      else
        Except.ok (t.insertSym name type kind line col)
  | none => Except.ok (t.insertSym name type kind line col)

/-- Whether an Except is a success (the C++ code signals failure by throwing). -/
def exceptOk {ε α : Type} : Except ε α → Bool
  | Except.ok _ => true
  | Except.error _ => false

/- ===================== GlobalRegistry (src/Compiler/SemanticAnalyser/GlobalRegistry.cpp) ===================== -/

/-- A subroutine signature as stored by `registerMethod`
(`{returnType, params, isStatic, line, column}` in GlobalRegistry.h). -/
structure MethodSignature where
  returnType : String
  parameters : List String
  isStatic : Bool
  line : Int
  col : Int
  deriving DecidableEq, Repr

/-- The registry state: the set of known class names and the per-class
subroutine-signature map (both std containers, modelled as lists). -/
structure GlobalRegistry where
  classes : List String
  methods : List (String × List (String × MethodSignature))
  deriving DecidableEq, Repr

/-- Membership in the class set, modelling `classes.count(className)`. -/
def listHas : List String → String → Bool
  | [], _ => false
  | x :: rest, n => if x = n then true else listHas rest n

/-- `GlobalRegistry::classExists`: the built-in primitives `int`, `boolean`
and `char` always exist; everything else must be in the registered set.
(The standard-library special case is commented out in the source; the
standard-library classes are instead registered at construction.) -/
def GlobalRegistry.classExists (r : GlobalRegistry) (className : String) : Bool :=
  if className = "int" ∨ className = "boolean" ∨ className = "char" then true
  else listHas r.classes className

/-- `GlobalRegistry::methodExists`. -/
def GlobalRegistry.methodExists (r : GlobalRegistry) (className methodName : String) : Bool :=
  match alookup r.methods className with
  | none => false
  | some mm =>
      match alookup mm methodName with
      | some _ => true
      | none => false

/-- `GlobalRegistry::getSignature`; the C++ version throws an internal
compiler error when the signature is absent, modelled as `none`. -/
def GlobalRegistry.getSignature (r : GlobalRegistry) (className methodName : String) :
    Option MethodSignature :=
  match alookup r.methods className with
  | none => none
  | some mm => alookup mm methodName

/-- The class names registered by `loadStandardLibrary` (the construction-time
state of the class set, before any user class is parsed). -/
def stdlibClasses : List String :=
  ["Math", "String", "Array", "Output", "Screen", "Keyboard", "Memory", "Sys"]

/- ===================== SemanticAnalyser::checkTypeMatch (SemanticAnalyser.cpp lines 18-24) ===================== -/

/-- `SemanticAnalyser::checkTypeMatch(expected, actual)`: returns normally
(ok) or throws a Type Mismatch SemanticError; the location prefix the C++
`error` helper prepends is omitted, the message text is kept. -/
def checkTypeMatch (expected actual : String) : Except String Unit :=
  if expected = actual then Except.ok ()
  else if actual = "null" then Except.ok ()
  else if expected = "char" ∧ actual = "int" then Except.ok ()
  else Except.error ("Type Mismatch. Expected '" ++ expected ++ "', Got '" ++ actual ++ "'")

/- ===================== Tokenizer::readNumber (Tokenizer.cpp lines 203-222) ===================== -/

/-- The digit-accumulation loop of `Tokenizer::readNumber`: before each
multiply-and-add the guard `value > 3276 || (value == 3276 && digit > 7)`
raises the range error. -/
def readNumberLoop : List Nat → Nat → Except String Nat
  | [], value => Except.ok value
  | d :: ds, value =>
      if value > 3276 ∨ (value = 3276 ∧ d > 7) then
        Except.error "Integer constant too large (max 32767)"
      else readNumberLoop ds (value * 10 + d)

/-- `Tokenizer::readNumber` on the maximal digit run (each list element is
one scanned digit value `src[pos] - '0'`), starting from 0. -/
def readNumber (ds : List Nat) : Except String Nat :=
  readNumberLoop ds 0

/-- The mathematical decimal value of a digit string. -/
def decDigitsValue (ds : List Nat) : Nat :=
  ds.foldl (fun a d => a * 10 + d) 0

/- ===================== AST (src/Compiler/Parser/AST.h) ===================== -/

/-- The keyword-literal payload of `KeywordLiteralNode`; the parser only
ever constructs `true`, `false`, `null` and `this` (any other keyword in
term position is a syntax error). -/
inductive Keyword where
  | TRUE_
  | FALSE_
  | NULL_
  | THIS_
  deriving DecidableEq, Repr

mutual
/-- Expression nodes (AST.h): `IntegerLiteralNode`, `StringLiteralNode`,
`KeywordLiteralNode`, `IdentifierNode` (its optional `indexExpr` split
into the plain `varRef` and the indexed `arrRef` case), `CallNode`
(empty `classNameOrVar` means an implicit receiver-less call),
`BinaryOpNode` and `UnaryOpNode`.  `FloatLiteralNode` exists in AST.h but
the tokenizer never produces FLOAT_CONST, so it is unreachable. -/
inductive Expr where
  | intLit (value : Int)
  | strLit (value : String)
  | kwLit (value : Keyword)
  | varRef (name : String)
  | arrRef (name : String) (indexExpr : Expr)
  | call (classNameOrVar : String) (functionName : String) (args : Args)
  | binop (left : Expr) (op : Char) (right : Expr)
  | unop (op : Char) (term : Expr)

/-- The `std::vector<std::unique_ptr<ExpressionNode>>` of call arguments. -/
inductive Args where
  | nil
  | cons (head : Expr) (tail : Args)
end

/-- `args.size()`. -/
def Args.length : Args → Nat
  | Args.nil => 0
  | Args.cons _ t => t.length + 1

/- ===================== VMWriter (src/Compiler/VMWriter/VMWriter.cpp) ===================== -/

/-- `enum class Segment` (VMWriter.h). -/
inductive Segment where
  | CONST
  | ARG
  | LOCAL
  | STATIC
  | THIS
  | THAT
  | POINTER
  | TEMP
  deriving DecidableEq, Repr

/-- `enum class Command` (VMWriter.h). -/
inductive Command where
  | ADD
  | SUB
  | NEG
  | EQ
  | GT
  | LT
  | AND
  | OR
  | NOT
  deriving DecidableEq, Repr

/-- One emitted VM line (the `write*` methods of VMWriter). -/
inductive VMInstr where
  | push (seg : Segment) (index : Int)
  | pop (seg : Segment) (index : Int)
  | arith (cmd : Command)
  | vmlabel (l : String)
  | vmgoto (l : String)
  | ifGoto (l : String)
  | vmcall (name : String) (nArgs : Nat)
  | vmfunction (name : String) (nLocals : Int)
  | vmreturn
  deriving DecidableEq, Repr

/-- `VMWriter::writeStringConstant`: push the length, call `String.new 1`,
then for each character push its code and call `String.appendChar 2`. -/
def writeStringConstant (s : String) : List VMInstr :=
  [VMInstr.push Segment.CONST (Int.ofNat s.length), VMInstr.vmcall "String.new" 1] ++
    (s.data.map (fun c =>
      [VMInstr.push Segment.CONST (Int.ofNat c.toNat), VMInstr.vmcall "String.appendChar" 2])).flatten

/- ===================== CodeGenerator (src/Compiler/CodeGenerator/CodeGenerator.cpp) ===================== -/

/-- The kind-to-segment switch inside `CodeGenerator::compileTerm` (and
`compileLet`), whose `default` case yields TEMP. -/
def segOfKindTerm : SymbolKind → Segment
  | SymbolKind.STATIC => Segment.STATIC
  | SymbolKind.FIELD => Segment.THIS
  | SymbolKind.ARG => Segment.ARG
  | SymbolKind.LCL => Segment.LOCAL
  | SymbolKind.NONE => Segment.TEMP

/-- The kind-to-segment switch inside `CodeGenerator::compileSubroutineCall`,
whose `default` case yields LOCAL. -/
def segOfKindCall : SymbolKind → Segment
  | SymbolKind.STATIC => Segment.STATIC
  | SymbolKind.FIELD => Segment.THIS
  | SymbolKind.ARG => Segment.ARG
  | _ => Segment.LOCAL

/-- The operator switch of the BINARY_OP branch of
`CodeGenerator::compileExpression` (its `default` case emits nothing). -/
def binOpInstr : Char → List VMInstr
  | '+' => [VMInstr.arith Command.ADD]
  | '-' => [VMInstr.arith Command.SUB]
  | '*' => [VMInstr.vmcall "Math.multiply" 2]
  | '/' => [VMInstr.vmcall "Math.divide" 2]
  | '&' => [VMInstr.arith Command.AND]
  | '|' => [VMInstr.arith Command.OR]
  | '<' => [VMInstr.arith Command.LT]
  | '>' => [VMInstr.arith Command.GT]
  | '=' => [VMInstr.arith Command.EQ]
  | _ => []

mutual
/-- `CodeGenerator::compileExpression(node)`: binary → left, right, operator;
unary → `compileTerm` on the operand then neg/not (nothing for any other
unary char); otherwise delegate to `compileTerm`.  The extra `Nat` is
recursion fuel (the C++ recursion is unbounded); exhausted fuel emits
nothing. -/
def compileExpression : Nat → SymbolTable → String → Expr → List VMInstr
  | 0, _, _, _ => []
  | fuel + 1, st, cls, e =>
      match e with
      | Expr.binop l op r =>
          compileExpression fuel st cls l ++ compileExpression fuel st cls r ++ binOpInstr op
      | Expr.unop op t =>
          compileTerm fuel st cls t ++
            (if op = '-' then [VMInstr.arith Command.NEG]
             else if op = '~' then [VMInstr.arith Command.NOT]
             else [])
      | _ => compileTerm fuel st cls e

/-- `CodeGenerator::compileTerm(node)`: the switch over node types.  The
BINARY_OP and UNARY_OP node types fall into the switch's `default: break`
and emit no instruction at all. -/
def compileTerm : Nat → SymbolTable → String → Expr → List VMInstr
  | 0, _, _, _ => []
  | fuel + 1, st, cls, e =>
      match e with
      | Expr.intLit v => [VMInstr.push Segment.CONST v]
      | Expr.strLit s => writeStringConstant s
      | Expr.kwLit k =>
          match k with
          | Keyword.TRUE_ => [VMInstr.push Segment.CONST 1, VMInstr.arith Command.NEG]
          | Keyword.FALSE_ => [VMInstr.push Segment.CONST 0]
          | Keyword.NULL_ => [VMInstr.push Segment.CONST 0]
          | Keyword.THIS_ => [VMInstr.push Segment.POINTER 0]
      | Expr.varRef n =>
          [VMInstr.push (segOfKindTerm (st.kindOf n)) (st.indexOf n)]
      | Expr.arrRef n idx =>
          [VMInstr.push (segOfKindTerm (st.kindOf n)) (st.indexOf n)] ++
            compileExpression fuel st cls idx ++
            [VMInstr.arith Command.ADD, VMInstr.pop Segment.POINTER 1,
             VMInstr.push Segment.THAT 0]
      | Expr.call cv fn args => compileSubroutineCall fuel st cls cv fn args
      | Expr.binop _ _ _ => []
      | Expr.unop _ _ => []

/-- `CodeGenerator::compileSubroutineCall(node)`: an empty `classNameOrVar`
pushes `pointer 0` and calls `CurrentClass.f` with `1 + |args|`; a
receiver that is a known symbol pushes that symbol and calls
`typeOf(receiver).f` with `1 + |args|`; otherwise the receiver is taken
as a class name and `receiver.f` is called with `|args|`. -/
def compileSubroutineCall : Nat → SymbolTable → String → String → String → Args → List VMInstr
  | 0, _, _, _, _, _ => []
  | fuel + 1, st, cls, cv, fn, args =>
      if cv = "" then
        VMInstr.push Segment.POINTER 0 ::
          (compileArgs fuel st cls args ++
            [VMInstr.vmcall (cls ++ "." ++ fn) (1 + args.length)])
      else if st.kindOf cv ≠ SymbolKind.NONE then
        VMInstr.push (segOfKindCall (st.kindOf cv)) (st.indexOf cv) ::
          (compileArgs fuel st cls args ++
            [VMInstr.vmcall (st.typeOf cv ++ "." ++ fn) (1 + args.length)])
      else
        compileArgs fuel st cls args ++
          [VMInstr.vmcall (cv ++ "." ++ fn) args.length]

/-- The argument loop of `compileSubroutineCall`: compile each argument in
order (every compiled argument also bumps `nArgs`, reflected above as
`args.length`). -/
def compileArgs : Nat → SymbolTable → String → Args → List VMInstr
  | 0, _, _, _ => []
  | _ + 1, _, _, Args.nil => []
  | fuel + 1, st, cls, Args.cons e t =>
      compileExpression fuel st cls e ++ compileArgs fuel st cls t
end

/- ===================== SemanticAnalyser (src/Compiler/SemanticAnalyser/SemanticAnalyser.cpp) ===================== -/

/-- Step 1 of `SemanticAnalyser::analyseSubroutineCall`: resolve the target
class and whether the call is a method (instance) call.  For a
receiver-less call the target is the current class; the target must be
registered; and when the current subroutine is a `function` and the
target is non-static, the static-call error is raised. -/
def resolveCallTarget (reg : GlobalRegistry) (currentClassName currentSubroutineKind : String)
    (table : SymbolTable) (classNameOrVar functionName : String) :
    Except String (String × Bool) :=
  if classNameOrVar = "" then
    if reg.methodExists currentClassName functionName = false then
      Except.error ("Method '" ++ functionName ++ "' not found in class '" ++
        currentClassName ++ "'")
    else
      match reg.getSignature currentClassName functionName with
      | none =>
          Except.error ("Internal Compiler Error: Signature lookup failed for " ++
            currentClassName ++ "." ++ functionName)
      | some sig =>
          if currentSubroutineKind = "function" ∧ sig.isStatic = false then
            Except.error ("Cannot call method '" ++ functionName ++
              "' from static function without object.")
          else Except.ok (currentClassName, !sig.isStatic)
  else
    if table.typeOf classNameOrVar ≠ "" then
      Except.ok (table.typeOf classNameOrVar, true)
    else if reg.classExists classNameOrVar = false then
      Except.error ("Undefined class '" ++ classNameOrVar ++ "'")
    else Except.ok (classNameOrVar, false)

mutual
/-- `SemanticAnalyser::analyseExpression`: computes the static type of an
expression or raises a SemanticError (messages as passed to `error`,
without the location prefix).  Fuel models the unbounded C++ recursion. -/
def analyseExpression : Nat → GlobalRegistry → String → String → SymbolTable → Expr →
    Except String String
  | 0, _, _, _, _, _ => Except.error "out of fuel"
  | fuel + 1, reg, cls, subKind, table, e =>
      match e with
      | Expr.intLit _ => Except.ok "int"
      | Expr.strLit _ => Except.ok "String"
      | Expr.kwLit k =>
          match k with
          | Keyword.TRUE_ => Except.ok "boolean"
          | Keyword.FALSE_ => Except.ok "boolean"
          | Keyword.THIS_ => Except.ok cls
          | Keyword.NULL_ => Except.ok "null"
      | Expr.varRef n =>
          if table.typeOf n = "" then
            Except.error ("Undefined variable '" ++ n ++ "'")
          else Except.ok (table.typeOf n)
      | Expr.arrRef n idx =>
          if table.typeOf n = "" then
            Except.error ("Undefined variable '" ++ n ++ "'")
          else if table.typeOf n ≠ "Array" then
            Except.error "Cannot index non-array variable."
          else do
            let it ← analyseExpression fuel reg cls subKind table idx
            if it ≠ "int" then Except.error "Array index must be an integer."
            else Except.ok "int"
      | Expr.binop l op r => do
          let lt ← analyseExpression fuel reg cls subKind table l
          let rt ← analyseExpression fuel reg cls subKind table r
          if op = '+' ∨ op = '-' ∨ op = '*' ∨ op = '/' then do
            checkTypeMatch "int" lt
            checkTypeMatch "int" rt
            Except.ok "int"
          else if op = '<' ∨ op = '>' then do
            checkTypeMatch "int" lt
            checkTypeMatch "int" rt
            Except.ok "boolean"
          else if op = '=' then
            if lt ≠ rt ∧ lt ≠ "null" ∧ rt ≠ "null" then
              Except.error ("Comparison type mismatch: " ++ lt ++ " vs " ++ rt)
            else Except.ok "boolean"
          else if op = '&' ∨ op = '|' then do
            checkTypeMatch "boolean" lt
            checkTypeMatch "boolean" rt
            Except.ok "boolean"
          else Except.ok "void"
      | Expr.unop op t => do
          let inner ← analyseExpression fuel reg cls subKind table t
          if op = '-' then do
            checkTypeMatch "int" inner
            Except.ok "int"
          else if op = '~' then do
            checkTypeMatch "boolean" inner
            Except.ok "boolean"
          else Except.ok "void"
      | Expr.call cv fn args =>
          analyseSubroutineCall fuel reg cls subKind table cv fn args

/-- `SemanticAnalyser::analyseSubroutineCall`: resolve the target (step 1),
re-check existence (step 2), fetch the signature (step 3 gate), run the
static/method mismatch checks, the arity check (step 4) and the
per-argument type checks (step 5); the result is the signature's return
type. -/
def analyseSubroutineCall : Nat → GlobalRegistry → String → String → SymbolTable →
    String → String → Args → Except String String
  | 0, _, _, _, _, _, _, _ => Except.error "out of fuel"
  | fuel + 1, reg, cls, subKind, table, cv, fn, args => do
      let (targetClass, isMethodCall) ← resolveCallTarget reg cls subKind table cv fn
      if reg.methodExists targetClass fn = false then
        Except.error ("Method '" ++ fn ++ "' not found in class '" ++ targetClass ++ "'")
      else
        match reg.getSignature targetClass fn with
        | none =>
            Except.error ("Internal Compiler Error: Signature lookup failed for " ++
              targetClass ++ "." ++ fn)
        | some sig => checkCallSignature fuel reg cls subKind table isMethodCall sig fn args

/-- Steps 3-5 of `analyseSubroutineCall` once the signature is in hand:
the static/method mismatch checks, the arity check and the argument type
checks; on success the signature's return type. -/
def checkCallSignature : Nat → GlobalRegistry → String → String → SymbolTable →
    Bool → MethodSignature → String → Args → Except String String
  | 0, _, _, _, _, _, _, _, _ => Except.error "out of fuel"
  | fuel + 1, reg, cls, subKind, table, isMethodCall, sig, fn, args =>
      if isMethodCall = true ∧ sig.isStatic = true then
        Except.error ("Cannot call static function '" ++ fn ++ "' on an object instance.")
      else if isMethodCall = false ∧ sig.isStatic = false then
        Except.error ("Cannot call method '" ++ fn ++ "' as a static function.")
      else if args.length ≠ sig.parameters.length then
        Except.error ("Argument count mismatch. Expected " ++ toString sig.parameters.length ++
          ", Got " ++ toString args.length)
      else do
        analyseArgTypes fuel reg cls subKind table sig.parameters args
        Except.ok sig.returnType

/-- Step 5 of `analyseSubroutineCall`: analyse each argument in order and
`checkTypeMatch` it against the corresponding parameter type (the arity
check has already ensured the two lists have the same length). -/
def analyseArgTypes : Nat → GlobalRegistry → String → String → SymbolTable →
    List String → Args → Except String Unit
  | 0, _, _, _, _, _, _ => Except.error "out of fuel"
  | _ + 1, _, _, _, _, [], Args.nil => Except.ok ()
  | fuel + 1, reg, cls, subKind, table, p :: ps, Args.cons a as => do
      let argTy ← analyseExpression fuel reg cls subKind table a
      checkTypeMatch p argTy
      analyseArgTypes fuel reg cls subKind table ps as
  | _ + 1, _, _, _, _, _, _ => Except.ok ()
end

/- ===================== Parser expressions (src/Compiler/Parser/Parser.cpp) ===================== -/

/-- The token stream elements (Token.h / TokenTypes.h).  FLOAT_CONST exists
in TokenTypes.h but this Tokenizer never produces it.  The end of the
Lean token list plays the role of the END_OF_FILE token. -/
inductive Token where
  | keyword (value : String)
  | symbol (value : Char)
  | identifier (value : String)
  | intConst (value : Int)
  | strConst (value : String)
  deriving DecidableEq, Repr

/-- The nine binary-operator characters tested by `Parser::isBinaryOp`. -/
def isBinOpChar (c : Char) : Bool :=
  c = '+' ∨ c = '-' ∨ c = '*' ∨ c = '/' ∨
    c = '&' ∨ c = '|' ∨ c = '<' ∨ c = '>' ∨ c = '='

/-- `Parser::isBinaryOp`: the current token is a SYMBOL whose value is one
of the nine operators. -/
def isBinaryOpTok : Option Token → Bool
  | some (Token.symbol c) => isBinOpChar c
  | _ => false

/-- `tokenizer.peek().getValue() == "<c>"`: the next token is the symbol `c`
(only SYMBOL tokens carry a one-character value). -/
def peekIs : List Token → Char → Bool
  | Token.symbol c :: _, d => c = d
  | _, _ => false

mutual
/-- `Parser::parseTerm`: integer constant, string constant, keyword
constant (`true|false|null|this`, anything else is "Inappropriate keyword
used in expression."), identifier (using one-token peek to distinguish
plain variable, array access `x[e]`, and subroutine call `x(...)` or
`x.y(...)`), parenthesized expression, unary `-`/`~`, otherwise the
"Expected an expression term" error. -/
def parseTerm : Nat → List Token → Except String (Expr × List Token)
  | 0, _ => Except.error "out of fuel"
  | fuel + 1, toks =>
      match toks with
      | Token.intConst v :: rest => Except.ok (Expr.intLit v, rest)
      | Token.strConst s :: rest => Except.ok (Expr.strLit s, rest)
      | Token.keyword k :: rest =>
          if k = "true" then Except.ok (Expr.kwLit Keyword.TRUE_, rest)
          else if k = "false" then Except.ok (Expr.kwLit Keyword.FALSE_, rest)
          else if k = "null" then Except.ok (Expr.kwLit Keyword.NULL_, rest)
          else if k = "this" then Except.ok (Expr.kwLit Keyword.THIS_, rest)
          else Except.error "Inappropriate keyword used in expression."
      | Token.identifier name :: rest =>
          if peekIs rest '[' then do
            let (e, r) ← parseExpression fuel rest.tail
            match r with
            | Token.symbol ']' :: r2 => Except.ok (Expr.arrRef name e, r2)
            | _ => Except.error "Expected ']' after array index"
          else if peekIs rest '(' || peekIs rest '.' then
            parseSubroutineCall fuel toks
          else Except.ok (Expr.varRef name, rest)
      | Token.symbol '(' :: rest => do
          let (e, r) ← parseExpression fuel rest
          match r with
          | Token.symbol ')' :: r2 => Except.ok (e, r2)
          | _ => Except.error "Expected ')' to close expression"
      | Token.symbol '-' :: rest => do
          let (t, r) ← parseTerm fuel rest
          Except.ok (Expr.unop '-' t, r)
      | Token.symbol '~' :: rest => do
          let (t, r) ← parseTerm fuel rest
          Except.ok (Expr.unop '~' t, r)
      | _ => Except.error "Expected an expression term"

/-- The `while (isBinaryOp())` loop of `Parser::parseExpression`: as long
as the current token is a binary operator, consume it, parse the next
term, and wrap the accumulated expression as the LEFT operand of a new
BinaryOpNode. -/
def exprLoop : Nat → Expr → List Token → Except String (Expr × List Token)
  | 0, _, _ => Except.error "out of fuel"
  | fuel + 1, left, toks =>
      match toks with
      | Token.symbol c :: rest =>
          if isBinOpChar c then do
            let (right, r2) ← parseTerm fuel rest
            exprLoop fuel (Expr.binop left c right) r2
          else Except.ok (left, toks)
      | _ => Except.ok (left, toks)

/-- `Parser::parseExpression`: parse the first term, then run the
left-associative operator loop. -/
def parseExpression : Nat → List Token → Except String (Expr × List Token)
  | 0, _ => Except.error "out of fuel"
  | fuel + 1, toks => do
      let (t, rest) ← parseTerm fuel toks
      exprLoop fuel t rest

/-- The trailing loop of `Parser::parseExpressionList`: `,` continues with
another expression, `)` ends the list, anything else is the "Expected ','
between arguments" error. -/
def exprListLoop : Nat → List Token → Except String (Args × List Token)
  | 0, _ => Except.error "out of fuel"
  | fuel + 1, toks =>
      match toks with
      | Token.symbol ',' :: rest => do
          let (e, r) ← parseExpression fuel rest
          let (tl, r2) ← exprListLoop fuel r
          Except.ok (Args.cons e tl, r2)
      | Token.symbol ')' :: _ => Except.ok (Args.nil, toks)
      | _ => Except.error "Expected ',' between arguments"

/-- `Parser::parseExpressionList`: empty when the next token is `)`;
otherwise a first expression followed by the comma loop. -/
def parseExpressionList : Nat → List Token → Except String (Args × List Token)
  | 0, _ => Except.error "out of fuel"
  | fuel + 1, toks =>
      match toks with
      | Token.symbol ')' :: _ => Except.ok (Args.nil, toks)
      | _ => do
          let (e, r) ← parseExpression fuel toks
          let (tl, r2) ← exprListLoop fuel r
          Except.ok (Args.cons e tl, r2)

/-- `Parser::parseSubroutineCall`: an identifier, optionally `.` and a
second identifier, then a parenthesized expression list; builds a
CallNode whose `classNameOrVar` is empty for the direct form. -/
def parseSubroutineCall : Nat → List Token → Except String (Expr × List Token)
  | 0, _ => Except.error "out of fuel"
  | fuel + 1, toks =>
      match toks with
      | Token.identifier first :: rest =>
          match rest with
          | Token.symbol '.' :: rest2 =>
              match rest2 with
              | Token.identifier sub :: rest3 =>
                  match rest3 with
                  | Token.symbol '(' :: rest4 => do
                      let (args, r) ← parseExpressionList fuel rest4
                      match r with
                      | Token.symbol ')' :: r2 => Except.ok (Expr.call first sub args, r2)
                      | _ => Except.error "Expected ')' to close argument list"
                  | _ => Except.error "Expected '(' for argument list"
              | _ => Except.error "Expected subroutine name after '.'"
          | Token.symbol '(' :: rest2 => do
              let (args, r) ← parseExpressionList fuel rest2
              match r with
              | Token.symbol ')' :: r2 => Except.ok (Expr.call "" first args, r2)
              | _ => Except.error "Expected ')' to close argument list"
          | _ => Except.error "Expected '(' for argument list"
      | _ => Except.error "Expected subroutine, class, or variable name"
end

/- ===================== Concrete scenario data ===================== -/

/-- A one-class registry for concrete call scenarios: `class Main` with
static `function void helper()` and `function void main()`. -/
def regMainHelper : GlobalRegistry :=
  { classes := ["Main"],
    methods := [("Main",
      [("helper", ⟨"void", [], true, 2, 5⟩), ("main", ⟨"void", [], true, 3, 5⟩)])] }

/-- A one-class registry for call-kind scenarios: `class Main` with a
non-static `method void foo()`. -/
def regMainFoo : GlobalRegistry :=
  { classes := ["Main"],
    methods := [("Main", [("foo", ⟨"void", [], false, 2, 1⟩)])] }

/- ===================== Chain vocabulary for the associativity theorem ===================== -/

/-- A token list is a safe continuation for a just-parsed simple term: its
head is not `[`, `(` or `.` (so the parser's one-token peek does not turn
the term into an array access or a call). -/
def ctxOk : List Token → Bool
  | Token.symbol c :: _ => if c = '[' ∨ c = '(' ∨ c = '.' then false else true
  | _ => true

/-- A token list ends an `(op term)*` chain: it is a safe continuation whose
head is also not a binary operator (so the `while (isBinaryOp())` loop
stops). -/
def stopsChain (toks : List Token) : Bool :=
  ctxOk toks && !(isBinaryOpTok toks.head?)

/-- `b` parses as the term `e` with fuel at least `n` in any safe
continuation: `parseTerm` consumes exactly `b` and returns `e`. -/
def termParses (n : Nat) (b : List Token) (e : Expr) : Prop :=
  ∀ fuel rest, n ≤ fuel → ctxOk rest = true →
    parseTerm fuel (b ++ rest) = Except.ok (e, rest)

/-- The token spelling of an `(op term)*` chain: each element contributes
its operator symbol followed by its term's tokens. -/
def chainToks : List (Char × List Token × Expr) → List Token
  | [] => []
  | (op, b, _) :: rest => Token.symbol op :: (b ++ chainToks rest)

/-- The strictly left-associative tree over a first term and a chain: each
chain element takes the whole accumulated expression as its LEFT operand. -/
def leftFold (first : Expr) : List (Char × List Token × Expr) → Expr
  | [] => first
  | (op, _, e) :: rest => leftFold (Expr.binop first op e) rest

/- ===================== Helper lemmas ===================== -/

/-- The decimal accumulator never decreases as further digits are folded in. -/
lemma foldl_digits_ge (ds : List Nat) :
    ∀ acc : Nat, acc ≤ ds.foldl (fun a d => a * 10 + d) acc := by
  induction ds with
  | nil => intro acc; simp
  | cons d ds ih =>
      intro acc
      have h1 : acc ≤ acc * 10 + d := by omega
      calc acc ≤ acc * 10 + d := h1
        _ ≤ ds.foldl (fun a d => a * 10 + d) (acc * 10 + d) := ih (acc * 10 + d)

/-- If the overflow guard of `readNumberLoop` does not fire then the new
accumulator is still within range. -/
lemma guard_pass_le {acc d : Nat} (hd : d ≤ 9)
    (hg : ¬(acc > 3276 ∨ (acc = 3276 ∧ d > 7))) : acc * 10 + d ≤ 32767 := by
  omega

/-- If the new accumulator would stay within range then the overflow guard
does not fire. -/
lemma guard_not_fire {acc d : Nat} (hle : acc * 10 + d ≤ 32767) :
    ¬(acc > 3276 ∨ (acc = 3276 ∧ d > 7)) := by
  omega

/-- `readNumberLoop` run: when the final decimal value is in range, every
guard passes and the loop returns the accumulated value. -/
lemma readNumberLoop_ok (ds : List Nat) :
    ∀ acc : Nat, (∀ d ∈ ds, d ≤ 9) →
      ds.foldl (fun a d => a * 10 + d) acc ≤ 32767 →
      readNumberLoop ds acc = Except.ok (ds.foldl (fun a d => a * 10 + d) acc) := by
  induction ds with
  | nil => intro acc _ _; simp [readNumberLoop]
  | cons d ds ih =>
      intro acc hd hle
      have hd9 : d ≤ 9 := hd d (by simp)
      rw [List.foldl_cons] at hle ⊢
      have hstep : acc * 10 + d ≤ ds.foldl (fun a d => a * 10 + d) (acc * 10 + d) :=
        foldl_digits_ge ds (acc * 10 + d)
      have hg : ¬(acc > 3276 ∨ (acc = 3276 ∧ d > 7)) := guard_not_fire (hstep.trans hle)
      rw [readNumberLoop, if_neg hg]
      exact ih (acc * 10 + d) (fun x hx => hd x (by simp [hx])) hle

/-- `readNumberLoop` run: when the decimal value overflows, the guard fires
at the offending digit and the loop returns the range error. -/
lemma readNumberLoop_err (ds : List Nat) :
    ∀ acc : Nat, (∀ d ∈ ds, d ≤ 9) → acc ≤ 32767 →
      32767 < ds.foldl (fun a d => a * 10 + d) acc →
      readNumberLoop ds acc = Except.error "Integer constant too large (max 32767)" := by
  induction ds with
  | nil => intro acc _ hacc hgt; simp at hgt; omega
  | cons d ds ih =>
      intro acc hd hacc hgt
      have hd9 : d ≤ 9 := hd d (by simp)
      rw [List.foldl_cons] at hgt
      by_cases hg : acc > 3276 ∨ (acc = 3276 ∧ d > 7)
      · rw [readNumberLoop, if_pos hg]
      · rw [readNumberLoop, if_neg hg]
        exact ih (acc * 10 + d) (fun x hx => hd x (by simp [hx])) (guard_pass_le hd9 hg) hgt

/-- Any value `readNumberLoop` returns from an in-range accumulator is in
range: the guard runs before every multiply-and-add. -/
lemma readNumberLoop_le (ds : List Nat) :
    ∀ acc v : Nat, (∀ d ∈ ds, d ≤ 9) → acc ≤ 32767 →
      readNumberLoop ds acc = Except.ok v → v ≤ 32767 := by
  induction ds with
  | nil =>
      intro acc v _ hacc hok
      simp [readNumberLoop] at hok
      omega
  | cons d ds ih =>
      intro acc v hd hacc hok
      have hd9 : d ≤ 9 := hd d (by simp)
      by_cases hg : acc > 3276 ∨ (acc = 3276 ∧ d > 7)
      · rw [readNumberLoop, if_pos hg] at hok
        exact absurd hok (by simp)
      · rw [readNumberLoop, if_neg hg] at hok
        exact ih (acc * 10 + d) v (fun x hx => hd x (by simp [hx])) (guard_pass_le hd9 hg) hok

/-- `listHas` agrees with list membership. -/
lemma listHas_iff_mem (l : List String) (n : String) : listHas l n = true ↔ n ∈ l := by
  induction l with
  | nil => simp [listHas]
  | cons x xs ih =>
      by_cases h : x = n
      · simp [listHas, h]
      · simp [listHas, h, ih, List.mem_cons]
        intro hn
        exact absurd hn.symm h

/- ===================== Claim theorems ===================== -/

/-- C9: `SymbolTable::startSubroutine` clears only the subroutine-scope map
and resets only the Arg and Local counters to 0; the class scope and the
Static and Field counters are unchanged. -/
theorem startSubroutine_resets_only_subroutine_scope (t : SymbolTable) :
    (t.startSubroutine).classScope = t.classScope ∧
    (t.startSubroutine).staticIdx = t.staticIdx ∧
    (t.startSubroutine).fieldIdx = t.fieldIdx ∧
    (t.startSubroutine).subRoutineScope = [] ∧
    (t.startSubroutine).argIdx = 0 ∧
    (t.startSubroutine).lclIdx = 0 :=
  ⟨rfl, rfl, rfl, rfl, rfl, rfl⟩

/-- C10: for a name absent from both scopes, the lookups are total and
return the fixed sentinels: kindOf = NONE, typeOf = "", indexOf = -1. -/
theorem lookup_miss_sentinels (t : SymbolTable) (name : String)
    (hsub : alookup t.subRoutineScope name = none)
    (hcls : alookup t.classScope name = none) :
    t.kindOf name = SymbolKind.NONE ∧ t.typeOf name = "" ∧ t.indexOf name = -1 := by
  have hl : t.lookup name = none := by
    simp [SymbolTable.lookup, hsub, hcls]
  simp [SymbolTable.kindOf, SymbolTable.typeOf, SymbolTable.indexOf, hl]

/-- Witness for C10 at the empty table and the name `x`. -/
theorem lookup_miss_sentinels_witness :
    alookup SymbolTable.empty.subRoutineScope "x" = none ∧
    alookup SymbolTable.empty.classScope "x" = none ∧
    (SymbolTable.empty.kindOf "x" = SymbolKind.NONE ∧
      SymbolTable.empty.typeOf "x" = "" ∧ SymbolTable.empty.indexOf "x" = -1) :=
  ⟨rfl, rfl, lookup_miss_sentinels SymbolTable.empty "x" rfl rfl⟩

/-- C6 counterexample: the collision check of `SymbolTable::define` calls
`lookup`, which prefers the subroutine scope; therefore, after field `x`
has been shadowed by local `x`, defining a SECOND field `x` finds only the
local, sees different scope levels, and succeeds — the same-scope-level
duplicate is not rejected, contrary to the claim. -/
theorem define_shadowed_duplicate_field_accepted :
    exceptOk (do
      let t1 ← SymbolTable.empty.define "x" "int" SymbolKind.FIELD 1 1
      let t2 ← t1.define "x" "int" SymbolKind.LCL 2 1
      t2.define "x" "boolean" SymbolKind.FIELD 3 1) = true := rfl

/-- C6 (amended): `define` fails exactly when the symbol `lookup` currently
returns for the name (subroutine scope first, then class scope) is at the
same scope level as the kind being defined.  Hence a second argument or
local over an existing argument or local fails, an argument or local over
a class-scope name succeeds (shadowing), and a second static or field
fails precisely when the name is NOT currently shadowed by a
subroutine-scope symbol. -/
theorem define_collision_iff (t : SymbolTable) (name type : String) (kind : SymbolKind)
    (line col : Int) :
    (∃ msg, t.define name type kind line col = Except.error msg) ↔
      (∃ s, t.lookup name = some s ∧ isGlobalKind kind = isGlobalKind s.kind) := by
  unfold SymbolTable.define
  cases h : t.lookup name with
  | none => simp
  | some s =>
      by_cases hg : isGlobalKind kind = isGlobalKind s.kind
      · simp [hg]
      · simp [hg]

/-- C2 counterexample: the freshly constructed registry (standard library
pre-seeded, no class named `void` registered) answers false for
`classExists("void")`: the primitive special case covers only `int`,
`boolean` and `char`. -/
theorem classExists_void_false :
    listHas stdlibClasses "void" = false ∧
    GlobalRegistry.classExists ⟨stdlibClasses, []⟩ "void" = false :=
  ⟨rfl, rfl⟩

/-- C2 (amended): `classExists` is true exactly for the built-in primitives
`int`, `boolean` and `char` and for the registered classes (which include
the pre-seeded standard-library classes); `void` is not special-cased. -/
theorem classExists_iff (r : GlobalRegistry) (name : String) :
    r.classExists name = true ↔
      (name = "int" ∨ name = "boolean" ∨ name = "char" ∨ name ∈ r.classes) := by
  unfold GlobalRegistry.classExists
  by_cases h : name = "int" ∨ name = "boolean" ∨ name = "char"
  · rw [if_pos h]
    simp only [true_iff]
    tauto
  · rw [if_neg h]
    rw [listHas_iff_mem]
    push_neg at h
    obtain ⟨h1, h2, h3⟩ := h
    simp [h1, h2, h3]

/-- C5: `checkTypeMatch` accepts `null` against ANY expected type — the
`actual == "null"` early return is not restricted to class types, so
`null` against `int` or `boolean` is accepted rather than rejected with a
Type Mismatch error (the adjacent source comment says null should be
assignable only to object types). -/
theorem checkTypeMatch_null_primitive_accepted :
    checkTypeMatch "int" "null" = Except.ok () ∧
    checkTypeMatch "boolean" "null" = Except.ok () :=
  ⟨rfl, rfl⟩

/-- C7: `readNumber` accepts exactly the digit strings whose decimal value
is at most 32767, returning that value; any larger value fails with the
range error message, the guard firing at the offending digit before the
multiply-and-add, so every value the scanner returns is at most 32767. -/
theorem readNumber_range (ds : List Nat) (hd : ∀ d ∈ ds, d ≤ 9) :
    (decDigitsValue ds ≤ 32767 → readNumber ds = Except.ok (decDigitsValue ds)) ∧
    (32767 < decDigitsValue ds →
      readNumber ds = Except.error "Integer constant too large (max 32767)") ∧
    (∀ v, readNumber ds = Except.ok v → v ≤ 32767) :=
  ⟨fun h => readNumberLoop_ok ds 0 hd h,
   fun h => readNumberLoop_err ds 0 hd (by omega) h,
   fun v hv => readNumberLoop_le ds 0 v hd (by omega) hv⟩

/-- Witness for C7: 32768 is rejected with the exact message, 32767 is
accepted with value 32767. -/
theorem readNumber_range_witness :
    (∀ d ∈ [3, 2, 7, 6, 8], d ≤ 9) ∧
    readNumber [3, 2, 7, 6, 8] = Except.error "Integer constant too large (max 32767)" ∧
    readNumber [3, 2, 7, 6, 7] = Except.ok 32767 :=
  ⟨by decide, (readNumber_range [3, 2, 7, 6, 8] (by decide)).2.1 (by decide),
   (readNumber_range [3, 2, 7, 6, 7] (by decide)).1 (by decide)⟩

/-- C1 counterexample: inside `function void main()` of `class Main`, the
receiver-less call `do helper();` to the STATIC `function void helper()`
is accepted by the semantic analyser, yet the code generator emits
`push pointer 0` and `call Main.helper 1` — not the `call Main.helper 0`
with no receiver push that the claim requires for a static target
(`compileSubroutineCall` never consults the registry and treats every
receiver-less call as a this-call). -/
theorem implicit_static_call_pushes_receiver :
    analyseSubroutineCall 3 regMainHelper "Main" "function" SymbolTable.empty "" "helper"
        Args.nil = Except.ok "void" ∧
    compileSubroutineCall 3 SymbolTable.empty "Main" "" "helper" Args.nil =
      [VMInstr.push Segment.POINTER 0, VMInstr.vmcall "Main.helper" 1] ∧
    compileSubroutineCall 3 SymbolTable.empty "Main" "" "helper" Args.nil ≠
      [VMInstr.vmcall "Main.helper" 0] :=
  ⟨rfl, rfl, by decide⟩

/-- C1 (amended): the emitted `call` count is determined by the syntactic
receiver alone — an explicit class receiver gives `k = |args|`; a variable
receiver gives a push of that variable and `k = 1 + |args|`; a
receiver-less call ALWAYS gives `push pointer 0` and
`call CurrentClass.m (1 + |args|)`, regardless of whether the target is
static and of the enclosing subroutine's kind. -/
theorem compileSubroutineCall_k (fuel : Nat) (st : SymbolTable) (cls cv fn : String)
    (args : Args) :
    (cv = "" →
      compileSubroutineCall (fuel + 1) st cls cv fn args =
        VMInstr.push Segment.POINTER 0 ::
          (compileArgs fuel st cls args ++
            [VMInstr.vmcall (cls ++ "." ++ fn) (1 + args.length)])) ∧
    (cv ≠ "" → st.kindOf cv ≠ SymbolKind.NONE →
      compileSubroutineCall (fuel + 1) st cls cv fn args =
        VMInstr.push (segOfKindCall (st.kindOf cv)) (st.indexOf cv) ::
          (compileArgs fuel st cls args ++
            [VMInstr.vmcall (st.typeOf cv ++ "." ++ fn) (1 + args.length)])) ∧
    (cv ≠ "" → st.kindOf cv = SymbolKind.NONE →
      compileSubroutineCall (fuel + 1) st cls cv fn args =
        compileArgs fuel st cls args ++ [VMInstr.vmcall (cv ++ "." ++ fn) args.length]) := by
  refine ⟨fun h => ?_, fun h1 h2 => ?_, fun h1 h2 => ?_⟩
  · rw [compileSubroutineCall, if_pos h]
  · rw [compileSubroutineCall, if_neg h1, if_pos h2]
  · rw [compileSubroutineCall, if_neg h1, if_neg (by simp [h2])]

/-- Witness for C1's amended theorem: an explicit class-receiver call
`Math.sqrt(9)` is emitted with `k = |args| = 1` and no receiver push. -/
theorem compileSubroutineCall_k_witness :
    ("Math" : String) ≠ "" ∧ SymbolTable.empty.kindOf "Math" = SymbolKind.NONE ∧
    compileSubroutineCall 4 SymbolTable.empty "Main" "Math" "sqrt"
        (Args.cons (Expr.intLit 9) Args.nil) =
      compileArgs 3 SymbolTable.empty "Main" (Args.cons (Expr.intLit 9) Args.nil) ++
        [VMInstr.vmcall "Math.sqrt" 1] :=
  ⟨by decide, rfl,
   (compileSubroutineCall_k 3 SymbolTable.empty "Main" "Math" "sqrt"
     (Args.cons (Expr.intLit 9) Args.nil)).2.2 (by decide) rfl⟩

/-- C3: the UNARY_OP branch of `compileExpression` compiles its operand via
`compileTerm`, whose switch has no case for BINARY_OP or UNARY_OP nodes
(`default: break` emits nothing).  So `-(1 + 2)` emits only `neg` — the
operand's code `push constant 1; push constant 2; add` (second conjunct)
is silently dropped — and the nested unary `-(-3)` likewise emits only
`neg` instead of `push constant 3; neg; neg`. -/
theorem unary_operand_dropped :
    compileExpression 5 SymbolTable.empty "Main"
        (Expr.unop '-' (Expr.binop (Expr.intLit 1) '+' (Expr.intLit 2))) =
      [VMInstr.arith Command.NEG] ∧
    compileExpression 5 SymbolTable.empty "Main"
        (Expr.binop (Expr.intLit 1) '+' (Expr.intLit 2)) =
      [VMInstr.push Segment.CONST 1, VMInstr.push Segment.CONST 2,
       VMInstr.arith Command.ADD] ∧
    compileExpression 5 SymbolTable.empty "Main"
        (Expr.unop '-' (Expr.unop '-' (Expr.intLit 3))) = [VMInstr.arith Command.NEG] :=
  ⟨rfl, rfl, rfl⟩

/-- C4 counterexample: from a CONSTRUCTOR, the receiver-less call `foo()`
to the method `foo` is accepted (result type `void`): the static-call
check in `analyseSubroutineCall` tests only `currentSubroutineKind ==
"function"`, so constructors are not rejected as the claim states. -/
theorem constructor_implicit_method_call_accepted :
    analyseSubroutineCall 3 regMainFoo "Main" "constructor" SymbolTable.empty "" "foo"
      Args.nil = Except.ok "void" := rfl

/-- C4 (amended): a receiver-less call to a non-static target errors with
"Cannot call method '<name>' from static function without object."
exactly when the enclosing subroutine is a `function`; from any other
subroutine kind (a method OR a constructor) the call proceeds to the
ordinary static/arity/argument-type checks as an instance call. -/
theorem implicit_method_call_kind_check (fuel : Nat) (reg : GlobalRegistry)
    (cls subKind : String) (table : SymbolTable) (fn : String) (args : Args)
    (sig : MethodSignature)
    (hex : reg.methodExists cls fn = true)
    (hsig : reg.getSignature cls fn = some sig)
    (hm : sig.isStatic = false) :
    (subKind = "function" →
      analyseSubroutineCall (fuel + 1) reg cls subKind table "" fn args =
        Except.error ("Cannot call method '" ++ fn ++
          "' from static function without object.")) ∧
    (subKind ≠ "function" →
      analyseSubroutineCall (fuel + 1) reg cls subKind table "" fn args =
        checkCallSignature fuel reg cls subKind table true sig fn args) := by
  constructor
  · intro h
    simp [analyseSubroutineCall, resolveCallTarget, hex, hsig, hm, h, Bind.bind, Except.bind]
  · intro h
    simp [analyseSubroutineCall, resolveCallTarget, hex, hsig, hm, h, Bind.bind, Except.bind]

/-- Witness for C4's amended theorem: from a `function`, the receiver-less
call to method `foo` produces exactly the claimed SemanticError message. -/
theorem implicit_method_call_kind_check_witness :
    regMainFoo.methodExists "Main" "foo" = true ∧
    regMainFoo.getSignature "Main" "foo" = some ⟨"void", [], false, 2, 1⟩ ∧
    analyseSubroutineCall 3 regMainFoo "Main" "function" SymbolTable.empty "" "foo"
        Args.nil =
      Except.error "Cannot call method 'foo' from static function without object." :=
  ⟨rfl, rfl,
   (implicit_method_call_kind_check 2 regMainFoo "Main" "function" SymbolTable.empty "foo"
     Args.nil ⟨"void", [], false, 2, 1⟩ rfl rfl rfl).1 rfl⟩

/-- A binary-operator character is none of the postfix starters `[`, `(`, `.`. -/
lemma binop_char_cases {c : Char} (h : isBinOpChar c = true) :
    ¬(c = '[' ∨ c = '(' ∨ c = '.') := by
  simp only [isBinOpChar, decide_eq_true_eq] at h
  rcases h with h | h | h | h | h | h | h | h | h <;> subst h <;> decide

/-- A token list headed by a binary-operator symbol is a safe continuation. -/
lemma binop_ctxOk {op : Char} (hop : isBinOpChar op = true) (rest : List Token) :
    ctxOk (Token.symbol op :: rest) = true := by
  simp only [ctxOk]
  rw [if_neg (binop_char_cases hop)]

/-- Splitting a `stopsChain` fact into its two components. -/
lemma stopsChain_parts {toks : List Token} (h : stopsChain toks = true) :
    ctxOk toks = true ∧ isBinaryOpTok toks.head? = false := by
  unfold stopsChain at h
  simp only [Bool.and_eq_true] at h
  exact ⟨h.1, by simpa using h.2⟩

/-- In a safe continuation the parser's peek sees none of `[`, `(`, `.`. -/
lemma ctxOk_peekIs_false {rest : List Token} (hctx : ctxOk rest = true) :
    peekIs rest '[' = false ∧ peekIs rest '(' = false ∧ peekIs rest '.' = false := by
  rcases rest with _ | ⟨t, r⟩
  · exact ⟨rfl, rfl, rfl⟩
  · cases t with
    | symbol c =>
        simp only [ctxOk] at hctx
        by_cases h : c = '[' ∨ c = '(' ∨ c = '.'
        · rw [if_pos h] at hctx
          cases hctx
        · push_neg at h
          obtain ⟨h1, h2, h3⟩ := h
          refine ⟨?_, ?_, ?_⟩ <;> simp [peekIs, h1, h2, h3]
    | keyword s => exact ⟨rfl, rfl, rfl⟩
    | identifier s => exact ⟨rfl, rfl, rfl⟩
    | intConst v => exact ⟨rfl, rfl, rfl⟩
    | strConst s => exact ⟨rfl, rfl, rfl⟩

/-- The token spelling of a chain followed by a chain-stopping list is a
safe continuation. -/
lemma ctxOk_chain_tail (segs : List (Char × List Token × Expr)) (tail : List Token)
    (hsegs : ∀ p ∈ segs, isBinOpChar p.1 = true)
    (htail : stopsChain tail = true) :
    ctxOk (chainToks segs ++ tail) = true := by
  cases segs with
  | nil => simpa [chainToks] using (stopsChain_parts htail).1
  | cons p segs =>
      obtain ⟨op, b, e⟩ := p
      have hop : isBinOpChar op = true := hsegs (op, b, e) (by simp)
      simp only [chainToks, List.cons_append]
      exact binop_ctxOk hop _

/-- A lone identifier parses as a plain variable term in any safe
continuation (the `else` branch of the peek dispatch in `parseTerm`). -/
lemma termParses_ident (x : String) : termParses 1 [Token.identifier x] (Expr.varRef x) := by
  intro fuel rest hf hctx
  obtain ⟨f, rfl⟩ : ∃ f, fuel = f + 1 := ⟨fuel - 1, by omega⟩
  obtain ⟨h1, h2, h3⟩ := ctxOk_peekIs_false hctx
  simp [parseTerm, h1, h2, h3]

/-- The keyword `false` parses as the keyword-literal term. -/
lemma termParses_kwFalse : termParses 1 [Token.keyword "false"] (Expr.kwLit Keyword.FALSE_) := by
  intro fuel rest hf _
  obtain ⟨f, rfl⟩ : ∃ f, fuel = f + 1 := ⟨fuel - 1, by omega⟩
  simp [parseTerm]

/-- On a chain-stopping token list the operator loop exits immediately. -/
lemma exprLoop_stop (left : Expr) (tail : List Token) (f : Nat)
    (htail : stopsChain tail = true) :
    exprLoop (f + 1) left tail = Except.ok (left, tail) := by
  obtain ⟨hctx, hbin⟩ := stopsChain_parts htail
  rcases tail with _ | ⟨t, r⟩
  · simp [exprLoop]
  · cases t with
    | symbol c =>
        have hc : isBinOpChar c = false := by simpa [isBinaryOpTok] using hbin
        simp [exprLoop, hc]
    | keyword s => simp [exprLoop]
    | identifier s => simp [exprLoop]
    | intConst v => simp [exprLoop]
    | strConst s => simp [exprLoop]

/-- The `while (isBinaryOp())` loop over a chain folds every `(op, term)`
pair onto the LEFT of the accumulated expression. -/
lemma exprLoop_chain (n : Nat) (segs : List (Char × List Token × Expr)) :
    ∀ fuel left tail,
      (∀ p ∈ segs, isBinOpChar p.1 = true ∧ termParses n p.2.1 p.2.2) →
      stopsChain tail = true →
      segs.length + n + 1 ≤ fuel →
      exprLoop fuel left (chainToks segs ++ tail) = Except.ok (leftFold left segs, tail) := by
  induction segs with
  | nil =>
      intro fuel left tail _ htail hfuel
      obtain ⟨f, rfl⟩ : ∃ f, fuel = f + 1 := ⟨fuel - 1, by omega⟩
      simpa [chainToks, leftFold] using exprLoop_stop left tail f htail
  | cons p segs ih =>
      obtain ⟨op, b, e⟩ := p
      intro fuel left tail hsegs htail hfuel
      obtain ⟨f, rfl⟩ : ∃ f, fuel = f + 1 := ⟨fuel - 1, by omega⟩
      have hop : isBinOpChar op = true := (hsegs (op, b, e) (by simp)).1
      have hterm : termParses n b e := (hsegs (op, b, e) (by simp)).2
      have hctx : ctxOk (chainToks segs ++ tail) = true :=
        ctxOk_chain_tail segs tail (fun q hq => (hsegs q (by simp [hq])).1) htail
      have hlen : segs.length + n + 1 ≤ f := by
        simp only [List.length_cons] at hfuel
        omega
      simp only [chainToks, List.cons_append, List.append_assoc, leftFold]
      simp only [exprLoop]
      rw [if_pos hop]
      rw [hterm f (chainToks segs ++ tail) (by omega) hctx]
      simp only [Bind.bind, Except.bind]
      exact ih f (Expr.binop left op e) tail (fun q hq => hsegs q (by simp [hq])) htail hlen

/-- C8: the expression grammar is strictly left-associative with no
operator precedence.  Whenever `b0` parses as the term `e0` and each
chain element `(opᵢ, bᵢ, eᵢ)` pairs a binary operator with tokens parsing
as the term `eᵢ`, `parseExpression` on `b0 op₁ b₁ … opₖ bₖ` returns the
left fold in which every new operator takes the ENTIRE
previously-parsed expression as its left operand — independently of
which operators appear. -/
theorem parseExpression_left_assoc (n : Nat) (b0 : List Token) (e0 : Expr)
    (segs : List (Char × List Token × Expr)) (tail : List Token) (fuel : Nat)
    (h0 : termParses n b0 e0)
    (hsegs : ∀ p ∈ segs, isBinOpChar p.1 = true ∧ termParses n p.2.1 p.2.2)
    (htail : stopsChain tail = true)
    (hfuel : segs.length + n + 2 ≤ fuel) :
    parseExpression fuel (b0 ++ (chainToks segs ++ tail)) =
      Except.ok (leftFold e0 segs, tail) := by
  obtain ⟨f, rfl⟩ : ∃ f, fuel = f + 1 := ⟨fuel - 1, by omega⟩
  have hctx : ctxOk (chainToks segs ++ tail) = true :=
    ctxOk_chain_tail segs tail (fun q hq => (hsegs q hq).1) htail
  simp only [parseExpression]
  rw [h0 f (chainToks segs ++ tail) (by omega) hctx]
  simp only [Bind.bind, Except.bind]
  exact exprLoop_chain n segs f e0 tail hsegs htail (by omega)

/-- Witness for C8: `a + b * c` parses as `(a + b) * c`, and
`i < n & found = false` parses as `((i < n) & found) = false`. -/
theorem parseExpression_left_assoc_witness :
    parseExpression 10 [Token.identifier "a", Token.symbol '+', Token.identifier "b",
        Token.symbol '*', Token.identifier "c", Token.symbol ';'] =
      Except.ok (Expr.binop (Expr.binop (Expr.varRef "a") '+' (Expr.varRef "b")) '*'
        (Expr.varRef "c"), [Token.symbol ';']) ∧
    parseExpression 12 [Token.identifier "i", Token.symbol '<', Token.identifier "n",
        Token.symbol '&', Token.identifier "found", Token.symbol '=', Token.keyword "false",
        Token.symbol ';'] =
      Except.ok (Expr.binop (Expr.binop (Expr.binop (Expr.varRef "i") '<' (Expr.varRef "n"))
        '&' (Expr.varRef "found")) '=' (Expr.kwLit Keyword.FALSE_), [Token.symbol ';']) := by
  constructor
  · exact parseExpression_left_assoc 1 [Token.identifier "a"] (Expr.varRef "a")
      [('+', [Token.identifier "b"], Expr.varRef "b"),
       ('*', [Token.identifier "c"], Expr.varRef "c")]
      [Token.symbol ';'] 10 (termParses_ident "a")
      (by
        intro p hp
        simp only [List.mem_cons, List.not_mem_nil, or_false] at hp
        rcases hp with rfl | rfl
        · exact ⟨by decide, termParses_ident "b"⟩
        · exact ⟨by decide, termParses_ident "c"⟩)
      (by decide) (by decide)
  · exact parseExpression_left_assoc 1 [Token.identifier "i"] (Expr.varRef "i")
      [('<', [Token.identifier "n"], Expr.varRef "n"),
       ('&', [Token.identifier "found"], Expr.varRef "found"),
       ('=', [Token.keyword "false"], Expr.kwLit Keyword.FALSE_)]
      [Token.symbol ';'] 12 (termParses_ident "i")
      (by
        intro p hp
        simp only [List.mem_cons, List.not_mem_nil, or_false] at hp
        rcases hp with rfl | rfl | rfl
        · exact ⟨by decide, termParses_ident "n"⟩
        · exact ⟨by decide, termParses_ident "found"⟩
        · exact ⟨by decide, termParses_kwFalse⟩)
      (by decide) (by decide)

end JackC
